import Mathlib

/-!
Verification of the crawl-ingestion pipeline (Python sources under src/python/)
against its natural-language specification.

Shallow embedding conventions:
* Pure Python functions become Lean functions; machine integers are `Nat`/`Int`.
* Code that can raise returns `Except`/`Option`, with one constructor per
  distinct exception path of the source.
* External collaborators (HTTP, MinIO, RabbitMQ, the HuggingFace encoder,
  `json.loads`) are parameters: oracles passed to the embedded functions.
* State-mutating orchestration code is embedded as explicit state passing
  (folds over the input lists), recording observable effects (publishes,
  marker writes, storage calls, acknowledgments) in the state.
-/

set_option autoImplicit false
set_option maxRecDepth 4000

namespace CCPipeline

/-! ### Tokenizer — src/python/tokenizer.py

`Tokenizer.__init__` sets `max_length = 512`, `stride = 256` and loads the
BERT vocabulary; the special token ids (`pad_token_id`, `cls_token_id`,
`sep_token_id`) come from the external vocabulary and are parameters here,
as is `self.tokenizer.encode` (a pure `text -> token ids` function). -/

structure Tokenizer where
  max_length : Nat
  stride : Nat
  pad_token_id : Int
  cls_token_id : Int
  sep_token_id : Int
deriving Repr, DecidableEq

/-- The tokenizer as constructed in `Tokenizer.__init__`. -/
def mkBertTokenizer (pad cls sep : Int) : Tokenizer :=
  ⟨512, 256, pad, cls, sep⟩

/-- The exceptions `Tokenizer.pad_sequence` can raise (each is wrapped into a
`TokenizationError` by its own `except` clause). -/
inductive PadError where
  | emptySequence
  | incorrectPaddingLength (n : Nat)
  | incorrectMaskLength (n : Nat)
deriving Repr, DecidableEq

/-- The local `padded_tokens` of `Tokenizer.pad_sequence`: right-pad with
the pad id when `padding_needed > 0`, otherwise truncate to `max_length`. -/
def paddedTokens (tk : Tokenizer) (tokens : List Int) : List Int :=
  if 0 < (tk.max_length : Int) - tokens.length then
    tokens ++ List.replicate (tk.max_length - tokens.length) tk.pad_token_id
  else tokens.take tk.max_length

/-- The local `attention_mask` of `Tokenizer.pad_sequence`: `1` where the
token id differs from the pad id, `0` otherwise. -/
def attentionMask (tk : Tokenizer) (padded : List Int) : List Int :=
  padded.map (fun t => if t ≠ tk.pad_token_id then (1 : Int) else 0)

/-- Embeds `Tokenizer.pad_sequence`: right-pad with the pad id up to `max_length`
(or truncate to `max_length`), build the attention mask by comparing each
token id with the pad id, then validate both output lengths. -/
def pad_sequence (tk : Tokenizer) (tokens : List Int) :
    Except PadError (List Int × List Int) :=
  if tokens = [] then .error .emptySequence
  else if (paddedTokens tk tokens).length ≠ tk.max_length then
    .error (.incorrectPaddingLength (paddedTokens tk tokens).length)
  else if (attentionMask tk (paddedTokens tk tokens)).length ≠ tk.max_length then
    .error (.incorrectMaskLength (attentionMask tk (paddedTokens tk tokens)).length)
  else .ok (paddedTokens tk tokens, attentionMask tk (paddedTokens tk tokens))

/-- One chunk dict appended by `Tokenizer.tokenize_with_chunks`. -/
structure TokenChunk where
  input_ids : List Int
  attention_mask : List Int
  chunk_index : Nat
  original_length : Nat
deriving Repr, DecidableEq, Inhabited

/-- Python `range(0, n, step)` for `step > 0`: the multiples of `step`
below `n`. -/
def pyRange (n step : Nat) : List Nat :=
  (List.range ((n + step - 1) / step)).map (fun i => i * step)

/-- The chunk-building loop body of `tokenize_with_chunks`: slice
`tokens[i : i + max_length - 2]`, wrap with cls/sep, pad, append. A
`TokenizationError` from `pad_sequence` aborts the loop (it propagates to
the enclosing `try`). -/
def buildChunksGo (tk : Tokenizer) (tokens : List Int) :
    List Nat → List TokenChunk → Except PadError (List TokenChunk)
  | [], acc => .ok acc
  | i :: rest, acc =>
    let chunk_tokens := (tokens.drop i).take (tk.max_length - 2)
    let wrapped := tk.cls_token_id :: (chunk_tokens ++ [tk.sep_token_id])
    match pad_sequence tk wrapped with
    | .error e => .error e
    | .ok pm =>
      buildChunksGo tk tokens rest (acc ++ [⟨pm.1, pm.2, acc.length, tokens.length⟩])

/-- Result dict of `tokenize_with_chunks`. The `incomplete` constructor
mirrors the `PARTIAL` member of the `TokenizationStatus` enum, which the
source never returns. -/
inductive TokenizationResult where
  | success (chunks : List TokenChunk)
  | failed (error : String)
  | incomplete
deriving Repr, DecidableEq

/-- The `str(e)` texts produced when a `TokenizationError` from
`pad_sequence` is caught by the `except` clause of `tokenize_with_chunks`. -/
def padErrorMessage : PadError → String
  | .emptySequence => "Failed to pad sequence: Empty token sequence"
  | .incorrectPaddingLength n =>
      "Failed to pad sequence: Incorrect padding length: " ++ toString n
  | .incorrectMaskLength n =>
      "Failed to pad sequence: Incorrect attention mask length: " ++ toString n

/-- Python's `not text or not text.strip()`: true exactly when every
character of `text` is whitespace (vacuously for the empty string). -/
def isBlank (text : String) : Bool :=
  text.data.all (fun c => c.isWhitespace)

/-- Embeds `Tokenizer.tokenize_with_chunks`. `encode` stands for
`self.tokenizer.encode(text, add_special_tokens=False)`. A zero loop step
would make Python's `range` raise `ValueError`, caught by the enclosing
`try` like every other internal failure. -/
def tokenize_with_chunks (tk : Tokenizer) (encode : String → List Int)
    (text : String) : TokenizationResult :=
  if isBlank text then .failed "Empty or whitespace-only text"
  else
    let tokens := encode text
    let step := tk.max_length - tk.stride
    if step = 0 then .failed "range() arg 3 must not be zero"
    else
      match buildChunksGo tk tokens (pyRange tokens.length step) [] with
      | .error e => .failed (padErrorMessage e)
      | .ok [] => .failed "No chunks created"
      | .ok chunks => .success chunks

/-- The chunk list carried by a result (empty for non-success results). -/
def chunksOf : TokenizationResult → List TokenChunk
  | .success chunks => chunks
  | _ => []

/-- Whenever `pad_sequence` returns normally, both returned lists have
length exactly `max_length` (the function validates this itself before
returning). -/
theorem pad_sequence_ok_lengths (tk : Tokenizer) (tokens : List Int)
    (pm : List Int × List Int) (h : pad_sequence tk tokens = .ok pm) :
    pm.1.length = tk.max_length ∧ pm.2.length = tk.max_length := by
  unfold pad_sequence at h
  split at h
  · exact absurd h (by simp)
  · split at h
    · exact absurd h (by simp)
    · split at h
      · exact absurd h (by simp)
      · rename_i h1 h2
        cases h
        exact ⟨not_ne_iff.mp h1, not_ne_iff.mp h2⟩

/-- Every chunk accumulated by the chunk-building loop has `input_ids` and
`attention_mask` of length `max_length`, provided the accumulator already
satisfied that. -/
theorem buildChunksGo_lengths (tk : Tokenizer) (tokens : List Int)
    (idxs : List Nat) (acc chunks : List TokenChunk)
    (h : buildChunksGo tk tokens idxs acc = .ok chunks)
    (hacc : ∀ c ∈ acc, c.input_ids.length = tk.max_length ∧
      c.attention_mask.length = tk.max_length) :
    ∀ c ∈ chunks, c.input_ids.length = tk.max_length ∧
      c.attention_mask.length = tk.max_length := by
  induction idxs generalizing acc with
  | nil =>
    simp only [buildChunksGo] at h
    cases h
    exact hacc
  | cons i rest ih =>
    simp only [buildChunksGo] at h
    set wrapped := tk.cls_token_id ::
      (((tokens.drop i).take (tk.max_length - 2)) ++ [tk.sep_token_id]) with hw
    cases hps : pad_sequence tk wrapped with
    | error e => rw [hps] at h; exact absurd h (by simp)
    | ok pm =>
      rw [hps] at h
      refine ih _ h ?_
      intro c hc
      rcases List.mem_append.mp hc with hc | hc
      · exact hacc c hc
      · rcases List.mem_singleton.mp hc with rfl
        exact pad_sequence_ok_lengths tk wrapped pm hps

/-- C1: with `maxLength = 512` and `stride = 256` (so `0 < stride <
maxLength`), every chunk produced by `tokenize_with_chunks` for any input
text has `input_ids` of length exactly 512 and `attention_mask` of length
exactly 512. -/
theorem chunk_invariant (pad cls sep : Int) (encode : String → List Int)
    (text : String) (chunks : List TokenChunk)
    (hs : tokenize_with_chunks (mkBertTokenizer pad cls sep) encode text =
      .success chunks)
    (c : TokenChunk) (hc : c ∈ chunks) :
    c.input_ids.length = 512 ∧ c.attention_mask.length = 512 := by
  unfold tokenize_with_chunks at hs
  split at hs
  · exact absurd hs (by simp)
  · simp only at hs
    split at hs
    · exact absurd hs (by simp)
    · split at hs
      · exact absurd hs (by simp)
      · exact absurd hs (by simp)
      · rename_i chunks' hb
        cases hs
        exact buildChunksGo_lengths _ _ _ _ _ hb (by simp) c hc

/-- Sample run: one token, producing a single chunk. -/
def c1SampleResult : TokenizationResult :=
  tokenize_with_chunks (mkBertTokenizer 0 101 102) (fun _ => [7]) "a"

/-- The single chunk of the sample run. -/
def c1SampleChunk : TokenChunk := (chunksOf c1SampleResult).headI

/-- Witness for C1: the sample run succeeds, its chunk list is the
non-empty `[c1SampleChunk]`, and `chunk_invariant` applies to it. -/
theorem chunk_invariant_witness :
    c1SampleResult = .success (chunksOf c1SampleResult) ∧
    c1SampleChunk ∈ chunksOf c1SampleResult ∧
    c1SampleChunk.input_ids.length = 512 ∧
    c1SampleChunk.attention_mask.length = 512 := by
  have hres : c1SampleResult = .success (chunksOf c1SampleResult) := by decide
  have hchunks : chunksOf c1SampleResult = [c1SampleChunk] := by decide
  have hmem : c1SampleChunk ∈ chunksOf c1SampleResult := by
    rw [hchunks]; exact List.mem_singleton_self _
  have hlen := chunk_invariant 0 101 102 (fun _ => [7]) "a"
    (chunksOf c1SampleResult) hres c1SampleChunk hmem
  exact ⟨hres, hmem, hlen.1, hlen.2⟩

/-- C10: the chunking entry point is total — for every input it returns
either `SUCCESS` with a non-empty chunk list, or `FAILED` with an error
description and no chunks (every exception path inside the function is
caught and converted to a `FAILED` result; the `PARTIAL` status is never
produced). -/
theorem tokenize_with_chunks_total (pad cls sep : Int)
    (encode : String → List Int) (text : String) :
    (∃ chunks, tokenize_with_chunks (mkBertTokenizer pad cls sep) encode text =
        .success chunks ∧ chunks ≠ []) ∨
    (∃ err, tokenize_with_chunks (mkBertTokenizer pad cls sep) encode text =
        .failed err) := by
  unfold tokenize_with_chunks
  split
  · exact Or.inr ⟨_, rfl⟩
  · simp only
    split
    · exact Or.inr ⟨_, rfl⟩
    · split
      · exact Or.inr ⟨_, rfl⟩
      · exact Or.inr ⟨_, rfl⟩
      · rename_i hne heq
        exact Or.inl ⟨_, rfl, hne⟩

/-! ### String splitting

Python's `str.split(sep)` with an explicit one-character separator keeps
empty segments; `"".split(sep) == [""]`. (`String.splitOn` agrees but does
not reduce definitionally, so we use a structural char-level splitter.) -/

/-- Split a character list at every occurrence of `sep`, keeping empty
segments. -/
def splitCharsOn (sep : Char) : List Char → List (List Char)
  | [] => [[]]
  | c :: rest =>
    match splitCharsOn sep rest with
    | [] => [[]]
    | seg :: segs => if c = sep then [] :: seg :: segs else (c :: seg) :: segs

/-- Python `s.split(sep)` for a one-character separator. -/
def pySplit (sep : Char) (s : String) : List String :=
  (splitCharsOn sep s.data).map String.mk

/-! ### CCDownloader — src/python/commoncrawl.py

`download_and_unzip` is decorated with tenacity
`retry(stop=stop_after_attempt(5), wait=wait_exponential(...),
retry=retry_if_exception_type((requests.RequestException,
requests.ConnectionError)))`. The body catches
`requests.RequestException` (which `HTTPError` from `raise_for_status`
and `ConnectionError` both subclass) and re-raises `DownloadError`;
`gzip.BadGzipFile` is likewise re-raised as `DownloadError` with a
different message. -/

/-- What the network produces on one HTTP attempt of `download_and_unzip`. -/
inductive AttemptOutcome where
  | transportFailure
  | httpErrorStatus
  | corruptGzip
  | goodResponse (payload : List Nat)
deriving Repr, DecidableEq

/-- Exceptions relevant to the decorated function. `requestException`
models `requests.RequestException`/`requests.ConnectionError`;
`downloadError d` models the module's `DownloadError`, where `d` records
whether its message is the decompression one ("Decompression failed: ...")
rather than the network one ("Download failed: ..."). -/
inductive DownloadExc where
  | requestException
  | downloadError (decompressionMessage : Bool)
deriving Repr, DecidableEq

/-- One execution of the body of `download_and_unzip` (without the
decorator): a transport failure or an HTTP error status is caught by
`except requests.RequestException` and re-raised as
`DownloadError("Download failed: ...")`; a gzip failure becomes
`DownloadError("Decompression failed: ...")`; otherwise the decompressed
payload is returned. -/
def downloadAttempt : AttemptOutcome → Except DownloadExc (List Nat)
  | .transportFailure => .error (.downloadError false)
  | .httpErrorStatus => .error (.downloadError false)
  | .corruptGzip => .error (.downloadError true)
  | .goodResponse payload => .ok payload

/-- The decorator's retry predicate:
`retry_if_exception_type((requests.RequestException, requests.ConnectionError))`. -/
def retriesOn : DownloadExc → Bool
  | .requestException => true
  | .downloadError _ => false

/-- tenacity's attempt loop: run attempt `k`; re-raise immediately when the
escaped exception does not satisfy the predicate, otherwise retry while
attempts remain. Returns the outcome and the number of attempts executed. -/
def retryLoop {α : Type} (pred : DownloadExc → Bool)
    (attempt : Nat → Except DownloadExc α) : Nat → Nat → Except DownloadExc α × Nat
  | k, 0 => (attempt k, k + 1)
  | k, n + 1 =>
    match attempt k with
    | .ok a => (.ok a, k + 1)
    | .error e => if pred e then retryLoop pred attempt (k + 1) n else (.error e, k + 1)

/-- Embeds `CCDownloader.download_and_unzip` as decorated: at most 5 attempts,
retried only on exceptions matching `retriesOn`. `outcomes k` is the
network's behaviour on attempt `k`. -/
def download_and_unzip (outcomes : Nat → AttemptOutcome) :
    Except DownloadExc (List Nat) × Nat :=
  retryLoop retriesOn (fun k => downloadAttempt (outcomes k)) 0 4

/-- C5 (code bug): a transient connection failure on the first attempt,
with a healthy response available from the second attempt on, produces a
`DownloadError` after exactly one attempt: the body's
`except requests.RequestException` converts the transport failure into
`DownloadError` before the decorator sees it, and `DownloadError` does not
match the retry predicate, so the configured 5-attempt backoff never
happens. The repository's own tests
(`test_recovers_from_temporary_failures`, `test_retry_mechanism_behavior`)
expect the retry to occur and the download to succeed here. -/
theorem transport_failure_not_retried :
    download_and_unzip
      (fun k => if k = 0 then .transportFailure else .goodResponse [1, 2]) =
      (.error (.downloadError false), 1) := rfl

/-! ### CSVIndexReader — src/python/commoncrawl.py

The reader state is the list of remaining file lines; `csv.reader` with
`delimiter="\t"` tab-splits each line (quoting subtleties of `csv` are
irrelevant to the claims and not modelled). -/

/-- Embeds `CSVIndexReader.__next__`, which is exactly `return next(self.reader)`: the
next tab-split row, with no validation of field count, numericity or sign;
`StopIteration` (`.error`) only at end of input. -/
def csvIndexNext (lines : List String) :
    Except Unit (List String × List String) :=
  match lines with
  | [] => .error ()
  | l :: rest => .ok (pySplit '\t' l, rest)

/-- C8 (code bug): `next()` on a malformed row — here the wrong-field-count
row from the repository's own test `test_rejects_missing_required_fields` —
returns the row unvalidated instead of failing with a validation error
(the tests `test_rejects_invalid_offset` and `test_rejects_invalid_length`
likewise expect `ValueError` for non-numeric and negative fields, and
`__next__` contains no check at all). -/
theorem csv_next_returns_malformed_row :
    csvIndexNext ["incomplete_row\tfile.gz\t0"] =
      .ok (["incomplete_row", "file.gz", "0"], []) := rfl

/-! ### ProcessedURLTracker — src/python/processed_url_tracker.py -/

/-- Outcome of `stat_object` against the marker bucket: object present,
`MinioException` containing "NoSuchKey", or any other `MinioException`. -/
inductive StatOutcome where
  | found
  | noSuchKey
  | storageFault
deriving Repr, DecidableEq

/-- Embeds `ProcessedURLTracker._generate_key`: the SHA-256 hex digest of
`url + ":" + timestamp`; `sha256hex` is the external hash function. -/
def generate_key (sha256hex : String → String) (url timestamp : String) :
    String :=
  sha256hex (url ++ ":" ++ timestamp)

/-- Embeds `ProcessedURLTracker.is_processed`: stat the marker object derived from
`(url, timestamp)`. Returns the result (`.error` models the `StorageError`
raised on a storage fault) together with the object keys passed to storage
calls, in order. The body contains no input validation of any kind. Its
`@retry` decorator matches only `MinioException`, but the body converts
every `MinioException` into a return value or a `StorageError`, so no
second attempt ever happens: exactly one `stat_object` call per invocation. -/
def is_processed (sha256hex : String → String) (stat : String → StatOutcome)
    (url timestamp : String) : Except Unit Bool × List String :=
  let objectKey := generate_key sha256hex url timestamp ++ ".marker"
  match stat objectKey with
  | .found => (.ok true, [objectKey])
  | .noSuchKey => (.ok false, [objectKey])
  | .storageFault => (.error (), [objectKey])

/-- The tenacity attempt loop of `mark_processed`'s decorator
(`stop_after_attempt(3)`, `retry_if_exception_type(StorageError)`): each
attempt issues one `put_object` call at `objectKey` (`put k` says whether
attempt `k` succeeds; a failure raises `StorageError`, which the predicate
matches, so it is retried while attempts remain and becomes `RetryError`
(`.error`) after the last one). Returns the outcome and the object keys
passed to storage calls, in order. -/
def markAttemptLoop (objectKey : String) (put : Nat → Bool) :
    Nat → Nat → Except Unit Unit × List String
  | k, 0 => if put k then (.ok (), [objectKey]) else (.error (), [objectKey])
  | k, n + 1 =>
    if put k then (.ok (), [objectKey])
    else
      ((markAttemptLoop objectKey put (k + 1) n).1,
        objectKey :: (markAttemptLoop objectKey put (k + 1) n).2)

/-- Embeds `ProcessedURLTracker.mark_processed` together with its live
`@retry` decorator: put an empty marker object at the derived key, with up
to 3 attempts because the body's `StorageError` matches the decorator's
retry predicate. The body contains no input validation of any kind. -/
def mark_processed (sha256hex : String → String) (put : Nat → Bool)
    (url timestamp : String) : Except Unit Unit × List String :=
  markAttemptLoop (generate_key sha256hex url timestamp ++ ".marker") put 0 2

/-- C7 counterexample: calling `is_processed` with an empty `url` is not
rejected — no validation error occurs and a storage call is made (the
repository's own test `test_is_processed_with_invalid_inputs` asserts
exactly this: `stat_object` is called once for the empty url). -/
theorem empty_url_reaches_storage :
    (is_processed (fun s => s) (fun _ => .noSuchKey) "" "20240101").1 =
      .ok false ∧
    (is_processed (fun s => s) (fun _ => .noSuchKey) "" "20240101").2 ≠ [] := by
  exact ⟨rfl, by decide⟩

/-- Every run of the mark attempt loop makes at least one and at most
`n + 1` storage calls, all of them at `objectKey`. -/
theorem markAttemptLoop_calls (objectKey : String) (put : Nat → Bool) :
    ∀ (n k : Nat),
      (markAttemptLoop objectKey put k n).2 ≠ [] ∧
      (∀ s ∈ (markAttemptLoop objectKey put k n).2, s = objectKey) ∧
      (markAttemptLoop objectKey put k n).2.length ≤ n + 1 := by
  intro n
  induction n with
  | zero =>
    intro k
    unfold markAttemptLoop
    by_cases hp : put k <;> simp [hp]
  | succ m ih =>
    intro k
    unfold markAttemptLoop
    by_cases hp : put k
    · simp [hp]
    · rcases ih (k + 1) with ⟨_, hmem, hlen⟩
      refine ⟨by simp [hp], ?_, ?_⟩
      · intro s hs
        simp only [if_neg hp, List.mem_cons] at hs
        rcases hs with rfl | hs
        · rfl
        · exact hmem s hs
      · simp only [if_neg hp, List.length_cons]
        omega

/-- C7 amended: `is_processed` and `mark_processed` perform no input
validation — for every `url` and `timestamp`, empty or not, `is_processed`
makes exactly one storage call and `mark_processed` makes between one and
three (its decorator retries the `StorageError` the body raises, up to 3
attempts), every one of them at the marker key derived by applying the hash
to `url + ":" + timestamp`; the key is a pure function of exactly those two
inputs. -/
theorem dedup_key_derivation (sha256hex : String → String)
    (stat : String → StatOutcome) (put : Nat → Bool)
    (url timestamp : String) :
    (is_processed sha256hex stat url timestamp).2 =
      [sha256hex (url ++ ":" ++ timestamp) ++ ".marker"] ∧
    (mark_processed sha256hex put url timestamp).2 ≠ [] ∧
    (∀ s ∈ (mark_processed sha256hex put url timestamp).2,
      s = sha256hex (url ++ ":" ++ timestamp) ++ ".marker") ∧
    (mark_processed sha256hex put url timestamp).2.length ≤ 3 := by
  refine ⟨?_, ?_⟩
  · cases h : stat (sha256hex (url ++ ":" ++ timestamp) ++ ".marker") <;>
      simp [is_processed, generate_key, h]
  · exact markAttemptLoop_calls
      (generate_key sha256hex url timestamp ++ ".marker") put 2 0

/-! ### Batcher — src/python/batcher.py

`process_index(index, channel, downloader, url_tracker, batch_size)` walks
the index rows, downloads each row's payload, filters its lines, collects
accepted documents into `found_urls` and publishes batches. External
collaborators are oracles: `parseJson` for `json.loads` on the metadata
tail, `isProc` for `url_tracker.is_processed` (`.error` = the check raised),
`pubOk k` for success of the k-th `basic_publish` call. An index row is
represented by the outcome of `download_and_unzip` for it (`.ok payload`,
or `.error` for any exception raised while downloading or converting the
offsets). -/

/-- The metadata fields inspected by the filter; `none` models an absent
key. All other fields pass through opaquely. -/
structure DocumentMetadata where
  languages : Option (List String)
  status : Option String
deriving Repr, DecidableEq

/-- The dict appended to `found_urls` for an accepted line. -/
structure CandidateDocument where
  surt_url : String
  timestamp : String
  metadata : DocumentMetadata
deriving Repr, DecidableEq

/-- Observable state of one `process_index` run: the in-flight batch, the
successfully published batches in order, every batch handed to a
`basic_publish` call, the `mark_processed` calls, and the number of
publish attempts (indexing the `pubOk` oracle). -/
structure BatcherState where
  found_urls : List CandidateDocument
  published : List (List CandidateDocument)
  attempted : List (List CandidateDocument)
  marked : List (String × String)
  publishAttempts : Nat
deriving Repr, DecidableEq

def initialBatcherState : BatcherState := ⟨[], [], [], [], 0⟩

/-- The dedup identities of a batch, as `_track_processed_urls` marks them. -/
def batchPairs (batch : List CandidateDocument) : List (String × String) :=
  batch.map (fun c => (c.surt_url, c.timestamp))

/-- How one `publish_batch` call ends: normal return, a `PublishError`
from `_publish_to_queue`, or an exception escaping a `mark_processed` call
inside `_track_processed_urls` (a `StorageError`/`RetryError` once the
tracker's internal retries are exhausted). -/
inductive FlushOutcome where
  | ok
  | publishRaised
  | markRaised
deriving Repr, DecidableEq

/-- Embeds `_track_processed_urls`: call `url_tracker.mark_processed` for each
item of the batch in order (`markOk` says whether a call returns or
raises). The first raising call aborts the loop, so the items before it
are marked and the rest are not. Returns the pairs actually marked and
whether a call raised. -/
def track_processed_urls (markOk : String → String → Bool) :
    List CandidateDocument → List (String × String) × Bool
  | [] => ([], false)
  | c :: rest =>
    if markOk c.surt_url c.timestamp then
      ((c.surt_url, c.timestamp) :: (track_processed_urls markOk rest).1,
        (track_processed_urls markOk rest).2)
    else ([], true)

/-- Embeds `publish_batch`: return immediately on an empty batch; otherwise call
`_publish_to_queue` (attempt number `st.publishAttempts` of the `pubOk`
oracle) and, only if it succeeds, `_track_processed_urls`. A failed
publish raises `PublishError` and marks nothing; a `mark_processed` call
that raises after a successful publish leaves that batch only partially
marked and propagates out of `publish_batch`. -/
def publish_batch (pubOk : Nat → Bool) (markOk : String → String → Bool)
    (st : BatcherState) (batch : List CandidateDocument) :
    BatcherState × FlushOutcome :=
  if batch = [] then (st, .ok)
  else if pubOk st.publishAttempts then
    ({ st with
        published := st.published ++ [batch],
        attempted := st.attempted ++ [batch],
        marked := st.marked ++ (track_processed_urls markOk batch).1,
        publishAttempts := st.publishAttempts + 1 },
      if (track_processed_urls markOk batch).2 then .markRaised else .ok)
  else
    ({ st with
        attempted := st.attempted ++ [batch],
        publishAttempts := st.publishAttempts + 1 }, .publishRaised)

/-- Embeds `_track_url_safely`: return `is_processed(url, timestamp)`; if the
check raises, log and report `True` (treat as already processed). -/
def track_url_safely (isProc : String → String → Except Unit Bool)
    (url timestamp : String) : Bool :=
  match isProc url timestamp with
  | .ok b => b
  | .error _ => true

/-- The local `values = line.split(" ")`. -/
def lineValues (line : String) : List String := pySplit ' ' line

/-- The local `url = values[0]` (the split of a line is never empty). -/
def lineURL (line : String) : String := (lineValues line).headI

/-- The local `timestamp = values[1]`. -/
def lineTimestamp (line : String) : String := (lineValues line).getD 1 ""

/-- The tail `"".join(values[2:])`, the text handed to `json.loads`. -/
def lineMetaTail (line : String) : String :=
  String.join ((lineValues line).drop 2)

/-- The per-line decision of the loop body. -/
inductive LineOutcome where
  | skip
  | accept (c : CandidateDocument)
deriving Repr, DecidableEq

/-- The accept/reject decision of one iteration of the line loop in
`process_index`. Every rejection path of the source maps to `skip`: a
`json.JSONDecodeError` on the metadata tail; the `IndexError` from
`values[1]` on a short line (caught by the blanket `except Exception`); a
missing `languages` or one without "eng"; the `KeyError` of a missing
`status` (blanket except); `status != "200"`; and a `_track_url_safely`
answer of `True` (already processed, or the check raised). -/
def lineDecision (parseJson : String → Option DocumentMetadata)
    (isProc : String → String → Except Unit Bool) (line : String) :
    LineOutcome :=
  match parseJson (lineMetaTail line) with
  | none => .skip
  | some md =>
    if (lineValues line).length < 2 then .skip
    else
      match md.languages with
      | none => .skip
      | some langs =>
        if "eng" ∉ langs then .skip
        else
          match md.status with
          | none => .skip
          | some s =>
            if s ≠ "200" then .skip
            else if track_url_safely isProc (lineURL line) (lineTimestamp line)
            then .skip
            else .accept ⟨lineURL line, lineTimestamp line, md⟩

/-- The oracles and configuration of one `process_index` run. -/
structure BatcherEnv where
  parseJson : String → Option DocumentMetadata
  isProc : String → String → Except Unit Bool
  pubOk : Nat → Bool
  markOk : String → String → Bool
  batch_size : Nat

/-- One iteration of the inner line loop of `process_index`: empty lines
are skipped; an accepted document is appended to `found_urls`; when the
batch reaches `batch_size` it is flushed with `publish_batch` — and any
exception raised by that flush (a `PublishError`, or a marking failure
after a successful publish) is caught by the loop's blanket
`except Exception` and swallowed, skipping the `found_urls = []` reset. -/
def processLine (env : BatcherEnv) (st : BatcherState) (line : String) :
    BatcherState :=
  if line = "" then st
  else
    match lineDecision env.parseJson env.isProc line with
    | .skip => st
    | .accept c =>
      if env.batch_size ≤ (st.found_urls ++ [c]).length then
        match publish_batch env.pubOk env.markOk st (st.found_urls ++ [c]) with
        | (st', .ok) => { st' with found_urls := [] }
        | (st', .publishRaised) => { st' with found_urls := st.found_urls ++ [c] }
        | (st', .markRaised) => { st' with found_urls := st.found_urls ++ [c] }
      else { st with found_urls := st.found_urls ++ [c] }

/-- Exceptions escaping the batcher orchestration. -/
inductive BatcherExc where
  | nameError
  | publishError
  | markError
deriving Repr, DecidableEq

/-- Embeds `_download_chunk`: on success, the decoded payload. When the download
(or an `int()` conversion) raises, Python evaluates the first handler
clause `except (ValueError, DecodeError)`; the name `DecodeError` is
neither defined nor imported in batcher.py, so that evaluation raises
`NameError`, the remaining handlers of the `try` are skipped, and the
`NameError` propagates to the caller — the `return None` fallbacks are
unreachable. -/
def download_chunk (dl : Except Unit String) : Except BatcherExc String :=
  match dl with
  | .ok s => .ok s
  | .error _ => .error .nameError

/-- The split `data.split("\n")` of the row loop. -/
def payloadLines (s : String) : List String := pySplit '\n' s

/-- The row loop of `process_index`: download each row's payload, skip
falsy (empty) payloads, fold the line loop over `data.split("\n")`. A
`NameError` escaping `_download_chunk` is not caught anywhere in
`process_index` and aborts the whole traversal. -/
def processRows (env : BatcherEnv) :
    List (Except Unit String) → BatcherState → BatcherState × Option BatcherExc
  | [], st => (st, none)
  | row :: rest, st =>
    match download_chunk row with
    | .error e => (st, some e)
    | .ok data =>
      if data = "" then processRows env rest st
      else processRows env rest ((payloadLines data).foldl (processLine env) st)

/-- Embeds `process_index`: traverse the rows, then flush any non-empty remaining
batch. An exception from this final `publish_batch` — whether the
`PublishError` of a failed publish or a marking failure after a
successful one — has no enclosing handler and surfaces to the caller. -/
def process_index (env : BatcherEnv) (index : List (Except Unit String)) :
    BatcherState × Option BatcherExc :=
  match processRows env index initialBatcherState with
  | (st, some e) => (st, some e)
  | (st, none) =>
    if st.found_urls = [] then (st, none)
    else
      match publish_batch env.pubOk env.markOk st st.found_urls with
      | (st', .ok) => (st', none)
      | (st', .publishRaised) => (st', some .publishError)
      | (st', .markRaised) => (st', some .markError)

/-- A `parseJson` oracle for concrete runs: only the tail "MD" parses, to
an English document with status 200. -/
def parseJsonMD : String → Option DocumentMetadata :=
  fun s => if s = "MD" then some ⟨some ["eng"], some "200"⟩ else none

/-- Concrete run for C2: batch size 1, first publish attempt fails,
later ones succeed, one row with two acceptable lines. -/
def c2Env : BatcherEnv :=
  ⟨parseJsonMD, fun _ _ => .ok false, fun k => decide (k ≠ 0), fun _ _ => true, 1⟩

def c2Index : List (Except Unit String) := [.ok "u1 t1 MD\nu2 t2 MD"]

/-- C2 counterexample: in the `c2Env` run a batch flush's publish fails
(two publish attempts, only one published batch) yet `process_index`
finishes without surfacing any error — the mid-loop `PublishError` was
swallowed by the per-line `except Exception` handler. (The failed batch's
document is also not lost: it was re-published, together with the next
document, by the second attempt.) -/
theorem publish_failure_swallowed :
    (process_index c2Env c2Index).2 = none ∧
    (process_index c2Env c2Index).1.publishAttempts = 2 ∧
    (process_index c2Env c2Index).1.published.length = 1 := by
  refine ⟨?_, ?_, ?_⟩ <;> rfl

/-- Concrete run for C3: batch size 1, first publish attempt fails, second
succeeds — the second, successful publish carries two documents. -/
def c3Env : BatcherEnv :=
  ⟨parseJsonMD, fun _ _ => .ok false, fun k => decide (k ≠ 0), fun _ _ => true, 1⟩

def c3Index : List (Except Unit String) := [.ok "a1 s1 MD\na2 s2 MD"]

/-- C3 counterexample: with configured batch size `N = 1`, the `c3Env` run
successfully publishes a batch of size 2: after the first flush's publish
failed (swallowed by the per-line handler), `found_urls` was not reset, so
the next flush published the grown batch — exceeding `N` (and, with enough
consecutive failures, the unused `MAX_BATCH_SIZE` ceiling as well, which no
code checks). -/
theorem oversized_batch_published :
    c3Env.batch_size = 1 ∧
    ((process_index c3Env c3Index).1.published).map List.length = [2] := by
  exact ⟨rfl, rfl⟩

/-- Concrete run for C6: the first row's fetch raises, the second row is
healthy. -/
def c6Env : BatcherEnv :=
  ⟨parseJsonMD, fun _ _ => .ok false, fun _ => true, fun _ _ => true, 5⟩

def c6Index : List (Except Unit String) := [.error (), .ok "x1 y1 MD"]

/-- C6 (code bug): a fetch failure on the first index row terminates the
whole traversal — `process_index` propagates the `NameError` raised while
evaluating `_download_chunk`'s handler tuple (`DecodeError` is undefined in
batcher.py), so the healthy second row is never processed and nothing is
published, where the specification requires traversal to continue with
subsequent rows. -/
theorem fetch_failure_kills_traversal :
    (process_index c6Env c6Index).2 = some .nameError ∧
    (process_index c6Env c6Index).1 = initialBatcherState := by
  exact ⟨rfl, rfl⟩

/-- Marker soundness invariant: every marked dedup pair belongs to some
successfully published batch (marking a batch can abort partway, so the
marked pairs need not cover a published batch, but they never exceed the
published ones). -/
def MarkSub (st : BatcherState) : Prop :=
  ∀ p ∈ st.marked, ∃ b ∈ st.published, p ∈ batchPairs b

/-- Whatever `_track_processed_urls` managed to mark is among the batch's
own identities. -/
theorem track_processed_urls_subset (markOk : String → String → Bool)
    (batch : List CandidateDocument) :
    ∀ p ∈ (track_processed_urls markOk batch).1, p ∈ batchPairs batch := by
  induction batch with
  | nil => intro p hp; simp [track_processed_urls] at hp
  | cons c rest ih =>
    intro p hp
    by_cases hm : markOk c.surt_url c.timestamp
    · simp only [track_processed_urls, if_pos hm, List.mem_cons] at hp
      rcases hp with rfl | hp
      · simp [batchPairs]
      · have := ih p hp
        simp only [batchPairs, List.map_cons, List.mem_cons]
        exact Or.inr (by simpa [batchPairs] using this)
    · simp [track_processed_urls, if_neg hm] at hp

theorem publish_batch_markSub (pubOk : Nat → Bool)
    (markOk : String → String → Bool) (st : BatcherState)
    (batch : List CandidateDocument) (h : MarkSub st) :
    MarkSub (publish_batch pubOk markOk st batch).1 := by
  unfold publish_batch
  split
  · exact h
  · split
    · intro p hp
      simp only [List.mem_append] at hp
      rcases hp with hp | hp
      · rcases h p hp with ⟨b, hb, hpb⟩
        exact ⟨b, by simp [hb], hpb⟩
      · exact ⟨batch, by simp, track_processed_urls_subset markOk batch p hp⟩
    · exact h

theorem processLine_markSub (env : BatcherEnv) (st : BatcherState)
    (line : String) (h : MarkSub st) : MarkSub (processLine env st line) := by
  unfold processLine
  split
  · exact h
  · split
    · exact h
    · rename_i cand heq
      split
      · rcases hpb : publish_batch env.pubOk env.markOk st (st.found_urls ++ [cand])
          with ⟨st', oc⟩
        have h2 := publish_batch_markSub env.pubOk env.markOk st
          (st.found_urls ++ [cand]) h
        rw [hpb] at h2
        cases oc <;> exact h2
      · exact h

theorem foldl_processLine_markSub (env : BatcherEnv) (lines : List String)
    (st : BatcherState) (h : MarkSub st) :
    MarkSub (lines.foldl (processLine env) st) := by
  induction lines generalizing st with
  | nil => exact h
  | cons l ls ih => exact ih _ (processLine_markSub env st l h)

theorem processRows_markSub (env : BatcherEnv)
    (index : List (Except Unit String)) (st : BatcherState) (h : MarkSub st) :
    MarkSub (processRows env index st).1 := by
  induction index generalizing st with
  | nil => exact h
  | cons row rest ih =>
    cases row with
    | error e => simpa [processRows, download_chunk] using h
    | ok data =>
      simp only [processRows, download_chunk]
      split
      · exact ih _ h
      · exact ih _ (foldl_processLine_markSub env _ _ h)

/-- C2 amended: marking happens only after a successful publish — at the
end of any `process_index` run, error or not, every marked dedup pair
belongs to a batch whose publish succeeded, so no document of a flush
whose publish failed is marked by it. (Two halves of the original claim
fail: a mid-loop flush's `PublishError` is swallowed by the per-line
`except Exception` rather than surfacing — see the counterexample — and a
`mark_processed` call that raises after a successful publish leaves that
batch only partially marked, so the marked pairs need not be exactly the
published ones.) -/
theorem marks_only_after_successful_publish (env : BatcherEnv)
    (index : List (Except Unit String)) :
    ∀ p ∈ (process_index env index).1.marked,
      ∃ b ∈ (process_index env index).1.published, p ∈ batchPairs b := by
  have h1 := processRows_markSub env index initialBatcherState
    (by intro p hp; simp [initialBatcherState] at hp)
  unfold process_index
  rcases hres : processRows env index initialBatcherState with ⟨st, e⟩
  rw [hres] at h1
  cases e with
  | some err => exact h1
  | none =>
    simp only
    split
    · exact h1
    · rcases hpb : publish_batch env.pubOk env.markOk st st.found_urls
        with ⟨st', oc⟩
      have h2 := publish_batch_markSub env.pubOk env.markOk st st.found_urls h1
      rw [hpb] at h2
      cases oc <;> exact h2

/-- Concrete run for the C2 witness: everything succeeds and one line is
accepted, published and marked. -/
def c2wEnv : BatcherEnv :=
  ⟨parseJsonMD, fun _ _ => .ok false, fun _ => true, fun _ _ => true, 1⟩

def c2wIndex : List (Except Unit String) := [.ok "m1 n1 MD"]

/-- Witness for the amended C2: in the `c2wEnv` run the pair ("m1", "n1")
is marked, and `marks_only_after_successful_publish` locates it in a
successfully published batch. -/
theorem marks_only_after_successful_publish_witness :
    ("m1", "n1") ∈ (process_index c2wEnv c2wIndex).1.marked ∧
    ∃ b ∈ (process_index c2wEnv c2wIndex).1.published,
      ("m1", "n1") ∈ batchPairs b :=
  ⟨by decide,
    marks_only_after_successful_publish c2wEnv c2wIndex ("m1", "n1")
      (by decide)⟩

/-- Batch bounds invariant for runs whose publishes all succeed: the
in-flight batch is strictly below the configured size, and every published
batch is within `[1, N]`. -/
def BatchInv (N : Nat) (st : BatcherState) : Prop :=
  st.found_urls.length < N ∧ ∀ b ∈ st.published, 1 ≤ b.length ∧ b.length ≤ N

/-- When every `mark_processed` call succeeds, `_track_processed_urls`
never raises. -/
theorem track_processed_urls_ok (markOk : String → String → Bool)
    (hmark : ∀ u t, markOk u t = true) (batch : List CandidateDocument) :
    (track_processed_urls markOk batch).2 = false := by
  induction batch with
  | nil => rfl
  | cons c rest ih =>
    simp [track_processed_urls, hmark c.surt_url c.timestamp, ih]

/-- With all publishes and all marks succeeding, a flush of a non-empty
batch takes the success path and returns `.ok`. -/
theorem publish_batch_all_ok (pubOk : Nat → Bool)
    (markOk : String → String → Bool) (st : BatcherState)
    (batch : List CandidateDocument) (hne : ¬batch = [])
    (hp : pubOk st.publishAttempts = true)
    (hmark : ∀ u t, markOk u t = true) :
    publish_batch pubOk markOk st batch =
      ({ st with
          published := st.published ++ [batch],
          attempted := st.attempted ++ [batch],
          marked := st.marked ++ (track_processed_urls markOk batch).1,
          publishAttempts := st.publishAttempts + 1 }, .ok) := by
  unfold publish_batch
  rw [if_neg hne, if_pos hp]
  simp [track_processed_urls_ok markOk hmark]

theorem processLine_batchInv (env : BatcherEnv) (st : BatcherState)
    (line : String) (hpub : ∀ k, env.pubOk k = true)
    (hmark : ∀ u t, env.markOk u t = true)
    (h : BatchInv env.batch_size st) :
    BatchInv env.batch_size (processLine env st line) := by
  unfold processLine
  split
  · exact h
  · split
    · exact h
    · rename_i cand heq
      split
      · rename_i hfull
        rcases h with ⟨hlt, hpb⟩
        have hne : ¬(st.found_urls ++ [cand] = []) := by simp
        have h1 : (st.found_urls ++ [cand]).length = st.found_urls.length + 1 := by
          simp
        have hlen : (st.found_urls ++ [cand]).length = env.batch_size := by omega
        rw [publish_batch_all_ok env.pubOk env.markOk st (st.found_urls ++ [cand])
          hne (hpub st.publishAttempts) hmark]
        constructor
        · simpa using Nat.lt_of_le_of_lt (Nat.zero_le _) hlt
        · intro b hb
          rcases List.mem_append.mp hb with hb | hb
          · exact hpb b hb
          · rcases List.mem_singleton.mp hb with rfl
            refine ⟨?_, le_of_eq hlen⟩
            rw [hlen]
            exact Nat.lt_of_le_of_lt (Nat.zero_le _) hlt
      · rename_i hnotfull
        rcases h with ⟨hlt, hpb⟩
        exact ⟨Nat.lt_of_not_le hnotfull, hpb⟩

theorem foldl_processLine_batchInv (env : BatcherEnv) (lines : List String)
    (st : BatcherState) (hpub : ∀ k, env.pubOk k = true)
    (hmark : ∀ u t, env.markOk u t = true)
    (h : BatchInv env.batch_size st) :
    BatchInv env.batch_size (lines.foldl (processLine env) st) := by
  induction lines generalizing st with
  | nil => exact h
  | cons l ls ih => exact ih _ (processLine_batchInv env st l hpub hmark h)

theorem processRows_batchInv (env : BatcherEnv)
    (index : List (Except Unit String)) (st : BatcherState)
    (hpub : ∀ k, env.pubOk k = true)
    (hmark : ∀ u t, env.markOk u t = true)
    (h : BatchInv env.batch_size st) :
    BatchInv env.batch_size (processRows env index st).1 := by
  induction index generalizing st with
  | nil => exact h
  | cons row rest ih =>
    cases row with
    | error e => simpa [processRows, download_chunk] using h
    | ok data =>
      simp only [processRows, download_chunk]
      split
      · exact ih _ h
      · exact ih _ (foldl_processLine_batchInv env _ _ hpub hmark h)

/-- C3 amended: in every run whose publish attempts all succeed and whose
markings all succeed (so no exception is swallowed mid-run by the
per-line handler and `found_urls` is reset after each flush), every batch
published by `process_index` with configured batch size `N > 0` has size
at least 1 and at most `N`. (Either swallowed failure leaves `found_urls`
unreset, and a later flush can exceed `N` — see the counterexample — and
no code enforces the unused `MAX_BATCH_SIZE` ceiling.) -/
theorem published_batch_bounds (env : BatcherEnv)
    (index : List (Except Unit String)) (hN : 0 < env.batch_size)
    (hpub : ∀ k, env.pubOk k = true)
    (hmark : ∀ u t, env.markOk u t = true) :
    ∀ b ∈ (process_index env index).1.published,
      1 ≤ b.length ∧ b.length ≤ env.batch_size := by
  have h1 := processRows_batchInv env index initialBatcherState hpub hmark
    ⟨by simpa using hN, by simp [initialBatcherState]⟩
  unfold process_index
  rcases hres : processRows env index initialBatcherState with ⟨st, e⟩
  rw [hres] at h1
  cases e with
  | some err => exact h1.2
  | none =>
    simp only
    split
    · exact h1.2
    · rename_i hne
      rw [publish_batch_all_ok env.pubOk env.markOk st st.found_urls hne
        (hpub st.publishAttempts) hmark]
      intro b hb
      rcases List.mem_append.mp hb with hb | hb
      · exact h1.2 b hb
      · rcases List.mem_singleton.mp hb with rfl
        have hne2 : st.found_urls ≠ [] := hne
        constructor
        · exact Nat.succ_le_of_lt (List.length_pos.mpr hne2)
        · exact h1.1.le

/-- Concrete run for the C3 witness: batch size 1, all publishes succeed,
one acceptable line. -/
def c3wEnv : BatcherEnv :=
  ⟨parseJsonMD, fun _ _ => .ok false, fun _ => true, fun _ _ => true, 1⟩

def c3wIndex : List (Except Unit String) := [.ok "w1 z1 MD"]

/-- Witness for the amended C3: in the `c3wEnv` run the (single) published
batch is within the bounds, by `published_batch_bounds` applied at this
concrete input. -/
theorem published_batch_bounds_witness :
    0 < c3wEnv.batch_size ∧
    (1 ≤ ((process_index c3wEnv c3wIndex).1.published.headI).length ∧
      ((process_index c3wEnv c3wIndex).1.published.headI).length ≤
        c3wEnv.batch_size) :=
  ⟨by decide,
    published_batch_bounds c3wEnv c3wIndex (by decide) (fun _ => rfl)
      (fun _ _ => rfl) _ (by decide)⟩

/-- The forwarding predicate as the specification words it: the metadata
JSON parses, its `languages` include the code "eng", its `status` equals
the string "200", and the dedup query (whose answer is `b`) reports the
pair not yet processed. Written from the spec for the refinement claim, to
be compared with `lineDecision` from the source. -/
def specForwards (parseJson : String → Option DocumentMetadata) (b : Bool)
    (line : String) : Bool :=
  match parseJson (lineMetaTail line) with
  | none => false
  | some md =>
    (match md.languages with
     | some langs => decide ("eng" ∈ langs)
     | none => false) && decide (md.status = some "200") && !b

/-- If a line has fewer than two space-separated fields, the metadata tail
handed to `json.loads` is the empty string. -/
theorem lineMetaTail_short (line : String)
    (h : (lineValues line).length < 2) : lineMetaTail line = "" := by
  unfold lineMetaTail
  rw [List.drop_eq_nil_of_le (by omega)]
  rfl

/-- C4: for every non-empty index line whose dedup check succeeds with
answer `b` — and given that `json.loads` rejects the empty string — the
line is forwarded into the in-flight batch (the loop body reaches the
`found_urls.append`) iff its metadata JSON parses, its `languages` include
"eng", its `status` equals "200", and `b` is false (the pair is not
already marked processed); every rejected line yields `skip`, never an
exception escaping the loop. -/
theorem filter_correctness (parseJson : String → Option DocumentMetadata)
    (isProc : String → String → Except Unit Bool) (line : String) (b : Bool)
    (hempty : parseJson "" = none)
    (hq : isProc (lineURL line) (lineTimestamp line) = .ok b) :
    (∃ c, lineDecision parseJson isProc line = .accept c) ↔
      specForwards parseJson b line = true := by
  have htrack : track_url_safely isProc (lineURL line) (lineTimestamp line) = b := by
    unfold track_url_safely
    rw [hq]
  unfold lineDecision specForwards
  cases hmd : parseJson (lineMetaTail line) with
  | none => simp
  | some md =>
    by_cases hlen : (lineValues line).length < 2
    · rw [lineMetaTail_short line hlen, hempty] at hmd
      cases hmd
    · simp only [if_neg hlen]
      cases hl : md.languages with
      | none => simp
      | some langs =>
        cases hs : md.status with
        | none =>
          by_cases heng : "eng" ∈ langs <;> simp [heng]
        | some s =>
          rw [htrack]
          by_cases heng : "eng" ∈ langs <;>
            by_cases h200 : s = "200" <;>
              cases b <;>
                simp [heng, h200]

/-- A concrete line and oracles for the C4 witness. -/
def c4ParseJson : String → Option DocumentMetadata :=
  fun s => if s = "MD" then some ⟨some ["eng"], some "200"⟩ else none

def c4IsProc : String → String → Except Unit Bool := fun _ _ => .ok false

/-- Witness for C4: on the line "u t MD" — parseable metadata, English,
status 200, not yet processed — the hypotheses of `filter_correctness`
hold concretely and the line is indeed forwarded. -/
theorem filter_correctness_witness :
    c4ParseJson "" = none ∧
    c4IsProc (lineURL "u t MD") (lineTimestamp "u t MD") = .ok false ∧
    ((∃ c, lineDecision c4ParseJson c4IsProc "u t MD" = .accept c) ↔
      specForwards c4ParseJson false "u t MD" = true) ∧
    specForwards c4ParseJson false "u t MD" = true :=
  ⟨rfl, rfl,
    filter_correctness c4ParseJson c4IsProc "u t MD" false rfl rfl, rfl⟩

/-! ### Worker — src/python/worker.py

`process_batch(tokenizer, storage, scraper, ch, method, _properties, body)`
parses the message body, walks the items, and acknowledges. A batch item is
represented by the outcomes of its processing steps: `scraper.scrape`
yields a stream of texts, and for each text `tokenizer.create_document`
plus `storage.put_object` either stores one document (`.ok name`, naming
the stored artifact) or raises (`.error`); a scrape call that raises before
yielding anything is a one-element `.error` stream. -/

abbrev WorkerItem := List (Except Unit String)

/-- A message body after `json.loads`: a failed parse
(`json.JSONDecodeError`), a JSON array of batch items, or a non-iterable
JSON value such as a number. -/
inductive WorkerBody where
  | malformed
  | jsonArray (items : List WorkerItem)
  | jsonNumber (n : Int)

/-- The per-item `try` of the worker loop: texts are consumed in order and
each success stores one document; the first exception aborts this item
(counted in `failed_extractions` by the bare `except:`) without touching
the rest of the batch. Returns the documents stored for this item and
whether it failed. -/
def processItem : WorkerItem → List String × Bool
  | [] => ([], false)
  | .ok doc :: rest => ((processItem rest).1.cons doc, (processItem rest).2)
  | .error _ :: _ => ([], true)

/-- Result of one `process_batch` call: the stored documents in order, the
number of `basic_ack` calls issued, and the number of items whose
processing raised. -/
structure WorkerResult where
  stored : List String
  acks : Nat
  failedItems : Nat
deriving Repr, DecidableEq

/-- Embeds `worker.process_batch`: a `json.JSONDecodeError` acknowledges the
message and returns without processing; a body parsing to a non-iterable
value raises `TypeError` at the `for item in batch` statement, which no
handler catches (`.error` — the message is never acknowledged); a JSON
array is processed item by item, every per-item exception caught by the
bare `except:`, and the message is acknowledged exactly once afterwards. -/
def process_batch : WorkerBody → Except Unit WorkerResult
  | .malformed => .ok ⟨[], 1, 0⟩
  | .jsonNumber _ => .error ()
  | .jsonArray items =>
    .ok ⟨(items.map (fun it => (processItem it).1)).flatten, 1,
      (items.map (fun it => (processItem it).2)).count true⟩

/-- C9 counterexample: a queue message whose body is the JSON text "4"
parses successfully (so the `except json.JSONDecodeError` path is not
taken), and then `for item in batch` raises `TypeError`, which
`process_batch` does not catch — the message is never acknowledged,
contradicting "the message is acknowledged exactly once ... for every
queue message". -/
theorem nonarray_body_not_acknowledged :
    process_batch (.jsonNumber 4) = .error () := rfl

/-- C9 amended: for every message whose body fails to parse, and for every
message whose body parses to an array of items, the worker acknowledges
exactly once; a raising item anywhere in the batch does not interrupt the
remaining items — the items after it still store exactly their own
successes; and in particular a two-item batch whose first item's fetch
raises and whose second item succeeds stores exactly the second document,
with one failed item counted and exactly one acknowledgment. -/
theorem worker_resilience (pre post : List WorkerItem) (bad : WorkerItem) :
    (∃ r, process_batch (.jsonArray (pre ++ bad :: post)) = .ok r ∧
      r.acks = 1 ∧
      r.stored = (pre.map (fun it => (processItem it).1)).flatten ++
        ((processItem bad).1 ++
          (post.map (fun it => (processItem it).1)).flatten)) ∧
    process_batch .malformed = .ok ⟨[], 1, 0⟩ ∧
    process_batch (.jsonArray [[.error ()], [.ok "doc2"]]) =
      .ok ⟨["doc2"], 1, 1⟩ :=
  ⟨⟨_, rfl, rfl, by simp⟩, rfl, rfl⟩

end CCPipeline
